import Mathlib

/-
Verification of the weechat-alert relay protocol codec and session logic.

Shallow embedding conventions:
- Rust byte slices are modeled as List Nat, each element a byte value below 256.
- Rust strings (str, String) are modeled as List Nat holding their UTF-8 bytes;
  from_utf8 is modeled as a UTF-8 validity check returning the same bytes.
- Machine integers: i32 and i64 are Int with explicit two-complement reduction,
  usize is Nat with wrap-around modulo 2 ^ 64 (64-bit little-endian host,
  release-profile wrapping arithmetic; debug builds would abort where the
  release build wraps, and in both profiles the affected claims fail).
- Fallible Rust code returns Except; a Rust abort (out-of-range slice index,
  explicit abort in a match arm, Vec index out of bounds) is modeled as the
  distinguished error value panicked, which is distinct from every ParseError.
-/

/-- Error type of errors.rs, plus a distinguished value for Rust aborts. -/
inductive WErr where
  | parseError (msg : String)
  | panicked
  deriving DecidableEq, Repr

/-- Decoded wire values, the DataType enum of message_data.rs. -/
inductive DataType where
  | buf (b : Option (List Nat))
  | chr (c : Nat)
  | int (i : Int)
  | lon (l : Int)
  | ptr (p : Option (List Nat))
  | str (s : Option (List Nat))
  | tim (t : Int)
  | arr (a : List DataType)

/-- Value plus exact byte count consumed, the ExtractedData struct. -/
structure ExtractedData where
  value : DataType
  bytesRead : Nat

/-- UTF-8 bytes of an ASCII Lean string literal, used for the string literals
appearing in the Rust source (type tags, map keys, sentinel payloads). -/
def asciiBytes (s : String) : List Nat :=
  s.data.map Char.toNat

/-- Two-complement reading of a 32-bit unsigned value as i32. -/
def toSignedI32 (u : Nat) : Int :=
  if u < 2147483648 then (u : Int) else (u : Int) - 4294967296

/-- Rust cast i32-to-usize on a 64-bit host: reduce modulo 2 ^ 64. -/
def usizeOfI32 (i : Int) : Nat :=
  (i % 18446744073709551616).toNat

/-- Rust cast of a byte to i8: values 128..255 become negative. -/
def i8OfByte (b : Nat) : Int :=
  if b < 128 then (b : Int) else (b : Int) - 256

/-- Rust cast i8-to-usize on a 64-bit host: reduce modulo 2 ^ 64. -/
def usizeOfI8 (i : Int) : Nat :=
  (i % 18446744073709551616).toNat

/-- Wrapping usize addition (release-profile overflow behavior). -/
def wrapAdd64 (a b : Nat) : Nat :=
  (a + b) % 18446744073709551616

/-- Wrapping usize subtraction (release-profile overflow behavior). -/
def wrapSub64 (a b : Nat) : Nat :=
  (a + 18446744073709551616 - b % 18446744073709551616) % 18446744073709551616

/-- Rust slice indexing data[s..e]: aborts when the range is reversed or its
end exceeds the slice length, otherwise yields the subslice. -/
def rustSlice (l : List Nat) (s e : Nat) : Except WErr (List Nat) :=
  if s ≤ e ∧ e ≤ l.length then .ok ((l.drop s).take (e - s)) else .error .panicked

/-- Rust slice indexing data[s..]: aborts when s exceeds the slice length. -/
def rustSliceFrom (l : List Nat) (s : Nat) : Except WErr (List Nat) :=
  if s ≤ l.length then .ok (l.drop s) else .error .panicked

/-- Byte read data[i], guarded by earlier length checks in every use below. -/
def byteAt (l : List Nat) (i : Nat) : Nat :=
  l.getD i 0

/-- Byte-at-a-time UTF-8 acceptor: need counts the continuation bytes still
expected, and lo..hi bounds the next byte (the first continuation byte of a
sequence is range-restricted to exclude overlong encodings and surrogates,
later ones are plain 128..191), exactly the well-formedness condition
enforced by std str from_utf8. -/
def utf8Dfa : List Nat → Nat → Nat → Nat → Bool
  | [], need, _, _ => need = 0
  | b :: rest, 0, _, _ =>
    if b < 128 then utf8Dfa rest 0 0 0
    else if b < 194 then false
    else if b < 224 then utf8Dfa rest 1 128 191
    else if b = 224 then utf8Dfa rest 2 160 191
    else if b = 237 then utf8Dfa rest 2 128 159
    else if b < 240 then utf8Dfa rest 2 128 191
    else if b = 240 then utf8Dfa rest 3 144 191
    else if b = 244 then utf8Dfa rest 3 128 143
    else if b < 245 then utf8Dfa rest 3 128 191
    else false
  | b :: rest, n + 1, lo, hi =>
    if lo ≤ b ∧ b ≤ hi then utf8Dfa rest n 128 191 else false

/-- UTF-8 validity of a byte sequence, the check performed by from_utf8. -/
def isValidUtf8 (l : List Nat) : Bool :=
  utf8Dfa l 0 0 0

/-- Model of std str from_utf8 composed with the From Utf8Error conversion of
errors.rs: valid bytes pass through, invalid bytes give the fixed ParseError. -/
def fromUtf8 (bs : List Nat) : Except WErr (List Nat) :=
  if isValidUtf8 bs then .ok bs
  else .error (.parseError "Parsed invalid utf8 string")

/-- Embedding of bytes_to_i32 from conversions.rs: a slice whose length is not
exactly 4 is a ParseError; otherwise the four bytes are rearranged into
little-endian order and transmuted, which on a little-endian host reads the
original slice big-endian, two-complement signed. -/
def bytesToI32 (bs : List Nat) : Except WErr Int :=
  match bs with
  | [b0, b1, b2, b3] =>
    .ok (toSignedI32 (b3 + b2 * 256 + b1 * 65536 + b0 * 16777216))
  | _ => .error (.parseError "Cannot cast bytes to i32")

/-- Rust signed integer parsing (str parse to i64 or i32): optional sign, one
or more ASCII digits, nothing else, magnitude within the target range. -/
def digitsToNat : List Nat → Option Nat
  | [] => some 0
  | d :: rest =>
    if 48 ≤ d ∧ d ≤ 57 then
      (digitsToNat rest).map (fun n => (d - 48) * 10 ^ rest.length + n)
    else none

/-- Parse an optional sign followed by at least one digit into an Int. -/
def parseSignedDec (s : List Nat) : Option Int :=
  match s with
  | [] => none
  | c :: rest =>
    if c = 45 then
      match rest with
      | [] => none
      | _ => (digitsToNat rest).map (fun n => -(n : Int))
    else if c = 43 then
      match rest with
      | [] => none
      | _ => (digitsToNat rest).map (fun n => (n : Int))
    else (digitsToNat s).map (fun n => (n : Int))

/-- Model of str parse to i64, including the range check. -/
def parseI64 (s : List Nat) : Option Int :=
  match parseSignedDec s with
  | some v =>
    if -9223372036854775808 ≤ v ∧ v ≤ 9223372036854775807 then some v else none
  | none => none

/-- Model of str parse to i32, including the range check. -/
def parseI32 (s : List Nat) : Option Int :=
  match parseSignedDec s with
  | some v => if -2147483648 ≤ v ∧ v ≤ 2147483647 then some v else none
  | none => none

/-- Embedding of extract_char from message_data.rs. -/
def extractChar (data : List Nat) : Except WErr ExtractedData :=
  if data.length < 1 then .error (.parseError "Not enough bytes to parse char")
  else .ok ⟨.chr (byteAt data 0), 1⟩

/-- Embedding of extract_int from message_data.rs. -/
def extractInt (data : List Nat) : Except WErr ExtractedData :=
  if data.length < 4 then .error (.parseError "Not enough bytes to parse int")
  else do
    let sl ← rustSlice data 0 4
    let i ← bytesToI32 sl
    .ok ⟨.int i, 4⟩

/-- Embedding of extract_string from message_data.rs. The end position is
computed as 4 plus the declared size cast i32-to-usize, with wrapping usize
addition: a negative declared size wraps the end position. -/
def extractString (data : List Nat) : Except WErr ExtractedData :=
  if data.length < 4 then
    .error (.parseError "Not enough bytes to parse string")
  else do
    let sl ← rustSlice data 0 4
    let strSize ← bytesToI32 sl
    let endPos := wrapAdd64 4 (usizeOfI32 strSize)
    if data.length < endPos then
      .error (.parseError "String larger then availiable bytes")
    else if strSize = -1 then .ok ⟨.str none, endPos⟩
    else if strSize = 0 then .ok ⟨.str (some []), endPos⟩
    else do
      let raw ← rustSlice data 4 endPos
      let s ← fromUtf8 raw
      .ok ⟨.str (some s), endPos⟩

/-- Embedding of extract_pointer from message_data.rs. -/
def extractPointer (data : List Nat) : Except WErr ExtractedData :=
  if data.length < 2 then
    .error (.parseError "Not enough bytes to parse pointer")
  else do
    let ptrSize := i8OfByte (byteAt data 0)
    let endPos := wrapAdd64 1 (usizeOfI8 ptrSize)
    if data.length < endPos then
      .error (.parseError "Pointer larger then availiable bytes")
    else do
      let raw ← rustSlice data 1 endPos
      let p ← fromUtf8 raw
      .ok ⟨.ptr (if p.length = 1 ∧ p = asciiBytes "0" then none else some p), endPos⟩

/-- Embedding of extract_long from message_data.rs. -/
def extractLong (data : List Nat) : Except WErr ExtractedData :=
  if data.length < 2 then
    .error (.parseError "Not enough bytes to parse long")
  else do
    let longSize := i8OfByte (byteAt data 0)
    let endPos := wrapAdd64 1 (usizeOfI8 longSize)
    if data.length < endPos then
      .error (.parseError "Long larger then available bytes")
    else do
      let raw ← rustSlice data 1 endPos
      let s ← fromUtf8 raw
      match parseI64 s with
      | none => .error (.parseError "String to long conversion failed")
      | some l => .ok ⟨.lon l, endPos⟩

/-- Embedding of extract_time from message_data.rs. -/
def extractTime (data : List Nat) : Except WErr ExtractedData :=
  if data.length < 2 then
    .error (.parseError "Not enough bytes parse time")
  else do
    let timeSize := i8OfByte (byteAt data 0)
    let endPos := wrapAdd64 1 (usizeOfI8 timeSize)
    if data.length < endPos then
      .error (.parseError "Not enough bytes to extract time")
    else do
      let raw ← rustSlice data 1 endPos
      let s ← fromUtf8 raw
      match parseI32 s with
      | none => .error (.parseError "String to i32 conversion failed")
      | some t => .ok ⟨.tim t, endPos⟩

/-- Model of Vec clone_from_slice called on a freshly created empty Vec, as in
the buffer decoders: it aborts unless the source slice is also empty. -/
def cloneFromSliceEmpty (src : List Nat) : Except WErr (List Nat) :=
  if src.length = 0 then .ok src else .error .panicked

/-- Embedding of extract_buffer from message_data.rs, including its inverted
availability comparison: it errors when the end position is at most the
slice length, and otherwise proceeds to slice past the end of the input. -/
def extractBuffer (data : List Nat) : Except WErr ExtractedData :=
  if data.length < 4 then
    .error (.parseError "Not enough bytes to parse buffer")
  else do
    let sl ← rustSlice data 0 4
    let bufSize ← bytesToI32 sl
    let endPos := wrapAdd64 4 (usizeOfI32 bufSize)
    if data.length ≥ endPos then
      .error (.parseError "Buffer larger then availiable bytes")
    else if bufSize = -1 then .ok ⟨.buf none, endPos⟩
    else if bufSize = 0 then .ok ⟨.buf (some []), endPos⟩
    else do
      let raw ← rustSlice data 4 endPos
      let b ← cloneFromSliceEmpty raw
      .ok ⟨.buf (some b), endPos⟩

mutual

/-- Embedding of extract_array from message_data.rs: a 3-byte element type
tag, a 4-byte element count, then that many elements decoded recursively. -/
def extractArray (data : List Nat) : Except WErr ExtractedData :=
  if hd : data.length < 7 then
    .error (.parseError "Not enough bytes to have an array")
  else
    match rustSlice data 0 3 with
    | .error e => .error e
    | .ok raw =>
      match fromUtf8 raw with
      | .error e => .error e
      | .ok arrType =>
        match rustSlice data 3 7 with
        | .error e => .error e
        | .ok sl =>
          match bytesToI32 sl with
          | .error e => .error e
          | .ok n =>
            match arrLoop data arrType n.toNat 7 (by omega) (by omega) with
            | .error e => .error e
            | .ok (elems, endPos) => .ok ⟨.arr elems, endPos⟩
termination_by (data.length, 1, 0)

/-- Element loop of extract_array: cur is the rolling position (starting at 7),
each element is decoded from the remainder slice data[cur..]. -/
def arrLoop (data : List Nat) (tag : List Nat) (n : Nat) (cur : Nat)
    (hc : 7 ≤ cur) (hlen : 7 ≤ data.length) : Except WErr (List DataType × Nat) :=
  match n with
  | 0 => .ok ([], cur)
  | n + 1 =>
    if hcur : cur ≤ data.length then
      let step : Except WErr ExtractedData :=
        if tag = asciiBytes "chr" then extractChar (data.drop cur)
        else if tag = asciiBytes "int" then extractInt (data.drop cur)
        else if tag = asciiBytes "lon" then extractLong (data.drop cur)
        else if tag = asciiBytes "str" then extractString (data.drop cur)
        else if tag = asciiBytes "buf" then extractBuffer (data.drop cur)
        else if tag = asciiBytes "ptr" then extractPointer (data.drop cur)
        else if tag = asciiBytes "tim" then extractTime (data.drop cur)
        else if tag = asciiBytes "arr" then extractArray (data.drop cur)
        else .error (.parseError "Bad type for array")
      match step with
      | .error e => .error e
      | .ok ex =>
        match arrLoop data tag n (cur + ex.bytesRead) (by omega) hlen with
        | .error e => .error e
        | .ok (rest, endPos) => .ok (ex.value :: rest, endPos)
    else .error .panicked
termination_by (data.length, 0, n)
decreasing_by
  all_goals simp_wf
  · apply Prod.Lex.left
    have := List.length_drop cur data
    omega
  · apply Prod.Lex.right
    apply Prod.Lex.right
    omega

end

/-- Rust str split on a one-byte separator: the source splits the path and key
strings on a comma and each key spec on a colon. Splitting never yields an
empty list; an input without the separator yields a singleton. -/
def splitByte (sep : Nat) : List Nat → List (List Nat)
  | [] => [[]]
  | b :: rest =>
    match splitByte sep rest with
    | [] => [[]]
    | s :: ss => if b = sep then [] :: s :: ss else (b :: s) :: ss

/-- One HData record: a field name to value mapping with insertion order,
modeling the HashMap of hdata.rs (only lookups and inserts are performed). -/
abbrev HRecord := List (List Nat × DataType)

/-- HashMap insert: overwrite the value on an equal key, else append. -/
def recInsert (m : HRecord) (k : List Nat) (v : DataType) : HRecord :=
  if m.any (fun p => p.1 = k) then
    m.map (fun p => if p.1 = k then (k, v) else p)
  else m ++ [(k, v)]

/-- Path-pointer loop of HData::new: one pointer per path name per record. -/
def hdataPathsLoop (data : List Nat) :
    List (List Nat) → Nat → HRecord → Except WErr (HRecord × Nat)
  | [], cur, m => .ok (m, cur)
  | p :: ps, cur, m =>
    match rustSliceFrom data cur with
    | .error e => .error e
    | .ok rem =>
      match extractPointer rem with
      | .error e => .error e
      | .ok ex => hdataPathsLoop data ps (cur + ex.bytesRead) (recInsert m p ex.value)

/-- Key loop of HData::new: each key spec is split on a colon, part 0 is the
field name and part 1 the type code (the Vec index 1 aborts when the spec has
no colon); the type code selects the decoder, unknown codes are an error. -/
def hdataKeysLoop (data : List Nat) :
    List (List Nat) → Nat → HRecord → Except WErr (HRecord × Nat)
  | [], cur, m => .ok (m, cur)
  | k :: ks, cur, m =>
    match splitByte 58 k with
    | [] => .error .panicked
    | [_] => .error .panicked
    | kname :: ktype :: _ =>
      match rustSliceFrom data cur with
      | .error e => .error e
      | .ok rem =>
        let step : Except WErr ExtractedData :=
          if ktype = asciiBytes "chr" then extractChar rem
          else if ktype = asciiBytes "int" then extractInt rem
          else if ktype = asciiBytes "lon" then extractLong rem
          else if ktype = asciiBytes "str" then extractString rem
          else if ktype = asciiBytes "buf" then extractBuffer rem
          else if ktype = asciiBytes "ptr" then extractPointer rem
          else if ktype = asciiBytes "tim" then extractTime rem
          else if ktype = asciiBytes "arr" then extractArray rem
          else .error (.parseError "Bad type for key")
        match step with
        | .error e => .error e
        | .ok ex => hdataKeysLoop data ks (cur + ex.bytesRead) (recInsert m kname ex.value)

/-- Record loop of HData::new: each record decodes the path pointers then the
keyed fields, into a fresh map. -/
def hdataItemsLoop (data : List Nat) (paths keys : List (List Nat)) :
    Nat → Nat → Except WErr (List HRecord × Nat)
  | 0, cur => .ok ([], cur)
  | n + 1, cur =>
    match hdataPathsLoop data paths cur [] with
    | .error e => .error e
    | .ok (m1, cur1) =>
      match hdataKeysLoop data keys cur1 m1 with
      | .error e => .error e
      | .ok (m2, cur2) =>
        match hdataItemsLoop data paths keys n cur2 with
        | .error e => .error e
        | .ok (rest, endC) => .ok (m2 :: rest, endC)

/-- Embedding of HData::new from hdata.rs, additionally exposing the final
value of the internal rolling counter cur_pos (the total bytes consumed) so
consumption can be stated; the source computes it and then discards it. The
decode is: one string of comma-separated path names, one string of
comma-separated name:type key specs, one 4-byte record count, then the
records. No comparison of cur_pos against the input length is performed. -/
def hdataNewAux (data : List Nat) : Except WErr (List HRecord × Nat) := do
  let rem0 ← rustSliceFrom data 0
  let e1 ← extractString rem0
  let cur1 := 0 + e1.bytesRead
  let paths ← (match e1.value with
    | DataType.str (some s) => Except.ok (splitByte 44 s)
    | _ => Except.error (WErr.parseError "Invalid Path type"))
  let rem1 ← rustSliceFrom data cur1
  let e2 ← extractString rem1
  let cur2 := cur1 + e2.bytesRead
  let keys ← (match e2.value with
    | DataType.str (some s) => Except.ok (splitByte 44 s)
    | _ => Except.error (WErr.parseError "Invalid key type"))
  let sl ← rustSlice data cur2 (cur2 + 4)
  let n ← bytesToI32 sl
  hdataItemsLoop data paths keys n.toNat (cur2 + 4)

/-- HData::new as the source exposes it: just the record list. -/
def hdataNew (data : List Nat) : Except WErr (List HRecord) :=
  (hdataNewAux data).map (fun r => r.1)

/-- Decoded wire values, the Object enum of message.rs (the parse.rs flavor of
the codec); it adds the hashtable variant, modeled as a pair list. -/
inductive Object where
  | arr (a : List Object)
  | buf (b : Option (List Nat))
  | chr (c : Nat)
  | htb (h : List (Object × Object))
  | int (i : Int)
  | lon (l : Int)
  | ptr (p : Option (List Nat))
  | str (s : Option (List Nat))
  | tim (t : Int)

/-- Value plus exact byte count consumed, the Parse struct of parse.rs. -/
structure ParseResult where
  object : Object
  bytesRead : Nat

/-- Embedding of Parse::character from parse.rs. -/
def parseCharacter (bytes : List Nat) : Except WErr ParseResult :=
  if bytes.length < 1 then
    .error (.parseError "Not enough bytes to parse character")
  else .ok ⟨.chr (byteAt bytes 0), 1⟩

/-- Embedding of Parse::integer from parse.rs. -/
def parseInteger (bytes : List Nat) : Except WErr ParseResult :=
  if bytes.length < 4 then .error (.parseError "Not enough bytes to parse int")
  else do
    let sl ← rustSlice bytes 0 4
    let i ← bytesToI32 sl
    .ok ⟨.int i, 4⟩

/-- Embedding of Parse::string from parse.rs, byte for byte the same logic as
extract_string including the wrapping end position on a negative size. -/
def parseString (bytes : List Nat) : Except WErr ParseResult :=
  if bytes.length < 4 then
    .error (.parseError "Not enough bytes to parse string")
  else do
    let sl ← rustSlice bytes 0 4
    let strSize ← bytesToI32 sl
    let endPos := wrapAdd64 4 (usizeOfI32 strSize)
    if bytes.length < endPos then
      .error (.parseError "String larger then availiable bytes")
    else if strSize = -1 then .ok ⟨.str none, endPos⟩
    else if strSize = 0 then .ok ⟨.str (some []), endPos⟩
    else do
      let raw ← rustSlice bytes 4 endPos
      let s ← fromUtf8 raw
      .ok ⟨.str (some s), endPos⟩

/-- Embedding of Parse::pointer from parse.rs. -/
def parsePointer (bytes : List Nat) : Except WErr ParseResult :=
  if bytes.length < 2 then
    .error (.parseError "Not enough bytes to parse pointer")
  else do
    let ptrSize := i8OfByte (byteAt bytes 0)
    let endPos := wrapAdd64 1 (usizeOfI8 ptrSize)
    if bytes.length < endPos then
      .error (.parseError "Pointer larger then availiable bytes")
    else do
      let raw ← rustSlice bytes 1 endPos
      let p ← fromUtf8 raw
      .ok ⟨.ptr (if p.length = 1 ∧ p = asciiBytes "0" then none else some p), endPos⟩

/-- Embedding of Parse::buffer from parse.rs, including its inverted
availability comparison (greater-or-equal where the string decoder uses
less-than): enough bytes is reported as the error, too few bytes reaches an
out-of-range slice. -/
def parseBuffer (bytes : List Nat) : Except WErr ParseResult :=
  if bytes.length < 4 then
    .error (.parseError "Not enough bytes to parse buffer")
  else do
    let sl ← rustSlice bytes 0 4
    let bufSize ← bytesToI32 sl
    let endPos := wrapAdd64 4 (usizeOfI32 bufSize)
    if bytes.length ≥ endPos then
      .error (.parseError "Buffer larger then availiable bytes")
    else if bufSize = -1 then .ok ⟨.buf none, endPos⟩
    else if bufSize = 0 then .ok ⟨.buf (some []), endPos⟩
    else do
      let raw ← rustSlice bytes 4 endPos
      let b ← cloneFromSliceEmpty raw
      .ok ⟨.buf (some b), endPos⟩

/-- Embedding of Object::as_integer from message.rs. -/
def objAsInteger (o : Object) : Except WErr Int :=
  match o with
  | .int i => .ok i
  | _ => .error (.parseError "Item is not a integer")

/-- Embedding of Object::as_character from message.rs. -/
def objAsCharacter (o : Object) : Except WErr Nat :=
  match o with
  | .chr c => .ok c
  | _ => .error (.parseError "Item is not a character")

/-- Embedding of Object::as_str from message.rs (its error text really does
say buffer). -/
def objAsStr (o : Object) : Except WErr (Option (List Nat)) :=
  match o with
  | .str s => .ok s
  | _ => .error (.parseError "Item is not a buffer")

/-- Header record of message.rs: body length still to read and the
compression flag. -/
structure Header where
  length : Nat
  compression : Bool
  deriving DecidableEq, Repr

/-- Embedding of Header::new from message.rs: a 4-byte total message length,
then one compression byte that must be exactly 0 or 1; the exposed length is
the total minus the 5 header bytes, computed with wrapping usize
subtraction after an i32-to-usize cast of the total. -/
def headerNew (bytes : List Nat) : Except WErr Header :=
  match parseInteger bytes with
  | .error e => .error e
  | .ok p1 =>
    match objAsInteger p1.object with
    | .error e => .error e
    | .ok total =>
      match rustSliceFrom bytes p1.bytesRead with
      | .error e => .error e
      | .ok rem =>
        match parseCharacter rem with
        | .error e => .error e
        | .ok p2 =>
          match objAsCharacter p2.object with
          | .error e => .error e
          | .ok c =>
            match c with
            | 0 => .ok ⟨wrapSub64 (usizeOfI32 total) (p1.bytesRead + p2.bytesRead), false⟩
            | 1 => .ok ⟨wrapSub64 (usizeOfI32 total) (p1.bytesRead + p2.bytesRead), true⟩
            | _ => .error (.parseError "Bad compression byte")

/-- Embedding of DataType accessors used by message_header.rs (it calls
as_integer and as_character on the extracted values; the semantics mirror
the Object accessors of message.rs). -/
def dataAsInteger (d : DataType) : Except WErr Int :=
  match d with
  | .int i => .ok i
  | _ => .error (.parseError "Item is not a integer")

/-- Character accessor on DataType, as used by message_header.rs. -/
def dataAsCharacter (d : DataType) : Except WErr Nat :=
  match d with
  | .chr c => .ok c
  | _ => .error (.parseError "Item is not a character")

/-- Embedding of MessageHeader::new from message_header.rs: identical header
logic built on extract_int and extract_char, with its own error text. -/
def messageHeaderNew (data : List Nat) : Except WErr Header :=
  match extractInt data with
  | .error e => .error e
  | .ok e1 =>
    match dataAsInteger e1.value with
    | .error e => .error e
    | .ok total =>
      match rustSliceFrom data e1.bytesRead with
      | .error e => .error e
      | .ok rem =>
        match extractChar rem with
        | .error e => .error e
        | .ok e2 =>
          match dataAsCharacter e2.value with
          | .error e => .error e
          | .ok c =>
            match c with
            | 0 => .ok ⟨wrapSub64 (usizeOfI32 total) (e1.bytesRead + e2.bytesRead), false⟩
            | 1 => .ok ⟨wrapSub64 (usizeOfI32 total) (e1.bytesRead + e2.bytesRead), true⟩
            | _ => .error (.parseError "Bad compression data")

/-- The StrData struct of strdata.rs. -/
structure StrData where
  data : Option (List Nat)

/-- Embedding of StrData::new from strdata.rs: parse one string object,
convert it with as_str, then fail unless the parse consumed the whole
input slice. -/
def strDataNew (bytes : List Nat) : Except WErr StrData :=
  match parseString bytes with
  | .error e => .error e
  | .ok parsed =>
    match objAsStr parsed.object with
    | .error e => .error e
    | .ok s =>
      if bytes.length ≠ parsed.bytesRead then
        .error (.parseError "Not all bytes in message consumed")
      else .ok ⟨s⟩

/-- Kinds of std io::Error, as far as the relay session distinguishes them:
UnexpectedEof versus every other kind (represented by an opaque code). -/
inductive IoKind where
  | unexpectedEof
  | otherKind (code : Nat)
  deriving DecidableEq, Repr

/-- Error enum local to relay.rs: transport errors carrying their cause, the
inferred bad password, and data without a handler. -/
inductive RelayWErr where
  | rIo (k : IoKind)
  | rBadPassword
  | rNoDataHandler (s : String)
  deriving DecidableEq, Repr

/-- Outcome of a relay session step: a returned WeechatError or an abort. -/
inductive RelayFail where
  | werr (e : RelayWErr)
  | panicked
  deriving DecidableEq, Repr

/-- The MessageType enum of relay.rs: a string payload or HData records. -/
inductive RelayMsgType where
  | strData (s : Option (List Nat))
  | hData (records : List HRecord)

/-- The MessageData struct of relay.rs: identifier plus typed payload. -/
structure RelayMsg where
  identifier : List Nat
  data : RelayMsgType

/-- Embedding of the match in init_relay (relay.rs) on the result of the
post-init probe recv_msg: BadPassword or NoDataHandler from below abort;
an io error of kind UnexpectedEof becomes BadPassword; every other io error
is returned unchanged; a successful read must be a pong whose string payload
is exactly foo, anything else aborts. -/
def initRelayHandleRecv (recv : Except RelayWErr RelayMsg) :
    Except RelayFail Unit :=
  match recv with
  | .error (.rBadPassword) => .error .panicked
  | .error (.rNoDataHandler _) => .error .panicked
  | .error (.rIo k) =>
    if k = IoKind.unexpectedEof then .error (.werr .rBadPassword)
    else .error (.werr (.rIo k))
  | .ok msg =>
    if msg.identifier = asciiBytes "_pong" then
      match msg.data with
      | .strData (some s) =>
        if s = asciiBytes "foo" then .ok () else .error .panicked
      | .strData none => .error .panicked
      | .hData _ => .error .panicked
    else .error .panicked

/-- HashMap lookup on a record, for the indexing operations
data[key] in handle_buffer_line_added (an absent key aborts there). -/
def recLookup (m : HRecord) (k : List Nat) : Option DataType :=
  (m.find? (fun p => p.1 = k)).map (fun p => p.2)

/-- Inner tag loop of handle_buffer_line_added: each element must be a string
(a null string reads as empty); finding the tag notify_private stops the
scan of the remaining tags with a positive answer. -/
def tagLoop : List DataType → Except RelayFail Bool
  | [] => .ok false
  | e :: rest =>
    match e with
    | .str (some s) =>
      if s = asciiBytes "notify_private" then .ok true else tagLoop rest
    | .str none =>
      if ([] : List Nat) = asciiBytes "notify_private" then .ok true
      else tagLoop rest
    | _ => .error .panicked

/-- Record loop of handle_buffer_line_added, carrying the play_sound flag:
the highlight field must be a char; the value 1 stops the whole loop with a
positive answer; otherwise the tags_array field must be an array and its
tags are scanned; the flag is never cleared. -/
def hblaLoop : List HRecord → Bool → Except RelayFail Bool
  | [], sound => .ok sound
  | r :: rest, sound =>
    match recLookup r (asciiBytes "highlight") with
    | some (.chr c) =>
      if c = 1 then .ok true
      else
        match recLookup r (asciiBytes "tags_array") with
        | some (.arr tags) =>
          match tagLoop tags with
          | .error e => .error e
          | .ok found => hblaLoop rest (sound || found)
        | some _ => .error .panicked
        | none => .error .panicked
    | some _ => .error .panicked
    | none => .error .panicked

/-- Embedding of handle_buffer_line_added from relay.rs, up to the final
play_sound flag (the sound side effect itself is outside the model): a
string payload aborts, an HData payload is scanned record by record. -/
def handleBufferLineAdded (mt : RelayMsgType) : Except RelayFail Bool :=
  match mt with
  | .hData records => hblaLoop records false
  | .strData _ => .error .panicked

/-- One tag element equals the string notify_private (a null string never
does). -/
def tagMatchesNotifyPrivate (e : DataType) : Bool :=
  match e with
  | .str (some s) => s = asciiBytes "notify_private"
  | _ => false

/-- Notify-worthiness of one record in the words of the specification: the
highlight char field equals byte 1, or some element of the tags_array
string array is exactly notify_private. -/
def specNotifyWorthy (r : HRecord) : Bool :=
  match recLookup r (asciiBytes "highlight"), recLookup r (asciiBytes "tags_array") with
  | some (.chr c), some (.arr tags) =>
    (c == 1) || tags.any tagMatchesNotifyPrivate
  | _, _ => false

/-- Well-typedness of one record, as handle_buffer_line_added assumes it:
a char highlight field and a string-array tags_array field. -/
def recordWellTyped (r : HRecord) : Prop :=
  (∃ c, recLookup r (asciiBytes "highlight") = some (.chr c)) ∧
  (∃ tags, recLookup r (asciiBytes "tags_array") = some (.arr tags) ∧
    ∀ e ∈ tags, ∃ os, e = DataType.str os)

/-- Modeled from the specification words: the standard 4-byte big-endian
encoder of a signed 32-bit value (the spec names decode_i32 as its left
inverse, and phrases the string round trip through it); the repository
itself only decodes. -/
def specEncodeI32BE (v : Int) : List Nat :=
  [(v % 4294967296).toNat / 16777216 % 256,
   (v % 4294967296).toNat / 65536 % 256,
   (v % 4294967296).toNat / 256 % 256,
   (v % 4294967296).toNat % 256]

theorem usizeOfI32_ofNat (n : Nat) (h : n < 18446744073709551616) :
    usizeOfI32 (n : Int) = n := by
  unfold usizeOfI32
  omega

theorem wrapAdd64_small (a b : Nat) (h : a + b < 18446744073709551616) :
    wrapAdd64 a b = a + b :=
  Nat.mod_eq_of_lt h

theorem bytesToI32_encode (v : Int) (h1 : -2147483648 ≤ v)
    (h2 : v < 2147483648) : bytesToI32 (specEncodeI32BE v) = .ok v := by
  have hnn : 0 ≤ v % 4294967296 := Int.emod_nonneg v (by norm_num)
  have hlt : v % 4294967296 < 4294967296 :=
    Int.emod_lt_of_pos v (by norm_num)
  unfold specEncodeI32BE bytesToI32
  set u := (v % 4294967296).toNat with hu
  have hvu : (u : Int) = v % 4294967296 := Int.toNat_of_nonneg hnn
  have hub : u < 4294967296 := by omega
  simp only [Except.ok.injEq]
  have hre : u % 256 + u / 256 % 256 * 256 + u / 65536 % 256 * 65536 +
      u / 16777216 % 256 * 16777216 = u := by omega
  rw [hre]
  unfold toSignedI32
  split <;> omega

/-- Claim C8: bytes_to_i32 returns a ParseError for every input slice whose
length is not exactly 4, and for every signed 32-bit integer v, applying
bytes_to_i32 to the 4-byte big-endian encoding of v returns v (left inverse
of the big-endian encoder). -/
theorem c8_bytes_to_i32_inverse :
    (∀ bs : List Nat, bs.length ≠ 4 →
      bytesToI32 bs = .error (.parseError "Cannot cast bytes to i32")) ∧
    (∀ v : Int, -2147483648 ≤ v → v < 2147483648 →
      bytesToI32 (specEncodeI32BE v) = .ok v) := by
  constructor
  · intro bs h
    match bs with
    | [] => rfl
    | [_] => rfl
    | [_, _] => rfl
    | [_, _, _] => rfl
    | [_, _, _, _] => simp at h
    | _ :: _ :: _ :: _ :: _ :: _ => rfl
  · intro v h1 h2
    exact bytesToI32_encode v h1 h2

/-- Witness for claim C8 at the concrete inputs [1, 2, 3] and -123. -/
theorem c8_witness :
    (([1, 2, 3] : List Nat).length ≠ 4 ∧
      bytesToI32 [1, 2, 3] = .error (.parseError "Cannot cast bytes to i32")) ∧
    (-2147483648 ≤ (-123 : Int) ∧ (-123 : Int) < 2147483648 ∧
      bytesToI32 (specEncodeI32BE (-123)) = .ok (-123)) :=
  ⟨⟨by decide, c8_bytes_to_i32_inverse.1 [1, 2, 3] (by decide)⟩,
   ⟨by decide, by decide,
    c8_bytes_to_i32_inverse.2 (-123) (by decide) (by decide)⟩⟩

/-- Claim C3 (the code diverges from it): on the 4-byte input whose length
prefix is -1, both string decoders succeed with a null string but report 3
bytes consumed, not 4: the computation end = 4 + ((-1) as usize) wraps
around to 3 under release-profile usize arithmetic (under a debug profile
the same addition aborts on overflow). -/
theorem c3_null_string_consumes_three :
    extractString [255, 255, 255, 255] = .ok ⟨.str none, 3⟩ ∧
    parseString [255, 255, 255, 255] = .ok ⟨.str none, 3⟩ ∧
    (3 : Nat) ≠ 4 :=
  ⟨rfl, rfl, by decide⟩

/-- Claim C4 (the code diverges from it for buffers): the buffer decoders
invert the availability comparison. With declared length 5 and only 2 bytes
remaining they pass the guard and abort on the out-of-range slice
bytes[4..9] instead of returning a ParseError; conversely, with declared
length 1 and exactly enough bytes they return the availability ParseError.
The string decoder handles the same oversized input correctly. -/
theorem c4_buffer_bounds_eval :
    extractBuffer [0, 0, 0, 5, 1, 2] = .error .panicked ∧
    parseBuffer [0, 0, 0, 5, 1, 2] = .error .panicked ∧
    extractBuffer [0, 0, 0, 1, 97] =
      .error (.parseError "Buffer larger then availiable bytes") ∧
    parseBuffer [0, 0, 0, 1, 97] =
      .error (.parseError "Buffer larger then availiable bytes") ∧
    extractString [0, 0, 0, 5, 1, 2] =
      .error (.parseError "String larger then availiable bytes") ∧
    parseString [0, 0, 0, 5, 1, 2] =
      .error (.parseError "String larger then availiable bytes") :=
  ⟨rfl, rfl, rfl, rfl, rfl, rfl⟩

theorem parseString_ok_shape {bytes : List Nat} {pr : ParseResult}
    (h : parseString bytes = .ok pr) : ∃ s, pr.object = Object.str s := by
  unfold parseString at h
  split at h
  · simp at h
  · simp only [bind, Except.bind] at h
    split at h
    · simp at h
    · split at h
      · simp at h
      · split at h
        · simp at h
        · split at h
          · simp only [Except.ok.injEq] at h
            exact ⟨none, by rw [← h]⟩
          · split at h
            · simp only [Except.ok.injEq] at h
              exact ⟨some [], by rw [← h]⟩
            · split at h
              · simp at h
              · split at h
                · simp at h
                · simp only [Except.ok.injEq] at h
                  exact ⟨_, by rw [← h]⟩

/-- Claim C10: StrData::new succeeds only when the leading string object
occupies the entire slice; when the string decode succeeds but consumed a
different number of bytes than the slice length, it returns the ParseError
about unconsumed bytes instead of ignoring the trailing bytes. -/
theorem c10_strdata_full_consumption :
    (∀ (bytes : List Nat) (pr : ParseResult),
      parseString bytes = .ok pr → pr.bytesRead ≠ bytes.length →
      strDataNew bytes = .error (.parseError "Not all bytes in message consumed")) ∧
    (∀ (bytes : List Nat) (r : StrData), strDataNew bytes = .ok r →
      ∃ pr, parseString bytes = .ok pr ∧ pr.bytesRead = bytes.length) := by
  constructor
  · intro bytes pr hp hne
    obtain ⟨s, hs⟩ := parseString_ok_shape hp
    have hb : bytes.length ≠ pr.bytesRead := fun heq => hne heq.symm
    unfold strDataNew
    rw [hp]
    simp [hs, hb, objAsStr]
  · intro bytes r h
    unfold strDataNew at h
    split at h
    · simp at h
    · rename_i pr hp
      obtain ⟨s, hs⟩ := parseString_ok_shape hp
      refine ⟨pr, hp, ?_⟩
      by_cases hb : bytes.length = pr.bytesRead
      · omega
      · exfalso
        simp [hs, hb, objAsStr] at h

/-- Witness for claim C10 at the 5-byte input [0, 0, 0, 0, 9]: the string
decode consumes 4 bytes, the trailing byte triggers the ParseError. -/
theorem c10_witness :
    parseString [0, 0, 0, 0, 9] = .ok ⟨.str (some []), 4⟩ ∧
    ((⟨.str (some []), 4⟩ : ParseResult).bytesRead ≠
      ([0, 0, 0, 0, 9] : List Nat).length) ∧
    strDataNew [0, 0, 0, 0, 9] =
      .error (.parseError "Not all bytes in message consumed") :=
  ⟨rfl, by decide,
   c10_strdata_full_consumption.1 [0, 0, 0, 0, 9] ⟨.str (some []), 4⟩ rfl (by decide)⟩

/-- Claim C2: during the post-init probe read, a read failure of kind
UnexpectedEof is returned as BadPassword; a read failure of any other io
kind is returned as an io error carrying that same kind, never as
BadPassword. -/
theorem c2_probe_eof_is_bad_password :
    initRelayHandleRecv (.error (.rIo .unexpectedEof)) =
      .error (.werr .rBadPassword) ∧
    (∀ k : IoKind, k ≠ .unexpectedEof →
      initRelayHandleRecv (.error (.rIo k)) = .error (.werr (.rIo k))) := by
  refine ⟨rfl, ?_⟩
  intro k hk
  simp [initRelayHandleRecv, hk]

/-- Witness for claim C2 at a concrete io error kind other than
UnexpectedEof. -/
theorem c2_witness :
    IoKind.otherKind 0 ≠ IoKind.unexpectedEof ∧
    initRelayHandleRecv (.error (.rIo (.otherKind 0))) =
      .error (.werr (.rIo (.otherKind 0))) :=
  ⟨by decide, c2_probe_eof_is_bad_password.2 (.otherKind 0) (by decide)⟩

theorem toSignedI32_bounds (u : Nat) (h : u < 4294967296) :
    -2147483648 ≤ toSignedI32 u ∧ toSignedI32 u < 2147483648 := by
  unfold toSignedI32
  split <;> omega

theorem wrapSub64_header (t : Int) (h5 : 5 ≤ t) (hub : t < 2147483648) :
    wrapSub64 (usizeOfI32 t) 5 = (t - 5).toNat := by
  unfold wrapSub64 usizeOfI32
  omega

/-- Claim C6 (amended to totals of at least 5): for a 5-byte header whose
first four bytes decode big-endian to a total length T with 5 ≤ T and whose
fifth byte is 0 or 1, both header decoders succeed with exposed length
T - 5 and the compression flag given by the fifth byte; a fifth byte that
is neither 0 nor 1 is a ParseError. For T < 5 the subtraction total minus 5
wraps around the 64-bit usize instead (see the counterexample). -/
theorem c6_header_decode (b0 b1 b2 b3 b4 : Nat) (h0 : b0 < 256)
    (h1 : b1 < 256) (h2 : b2 < 256) (h3 : b3 < 256) :
    (5 ≤ toSignedI32 (b3 + b2 * 256 + b1 * 65536 + b0 * 16777216) →
      b4 = 0 ∨ b4 = 1 →
      headerNew [b0, b1, b2, b3, b4] =
        .ok ⟨(toSignedI32 (b3 + b2 * 256 + b1 * 65536 + b0 * 16777216) - 5).toNat,
             b4 == 1⟩ ∧
      messageHeaderNew [b0, b1, b2, b3, b4] =
        .ok ⟨(toSignedI32 (b3 + b2 * 256 + b1 * 65536 + b0 * 16777216) - 5).toNat,
             b4 == 1⟩) ∧
    (b4 ≠ 0 → b4 ≠ 1 →
      headerNew [b0, b1, b2, b3, b4] =
        .error (.parseError "Bad compression byte") ∧
      messageHeaderNew [b0, b1, b2, b3, b4] =
        .error (.parseError "Bad compression data")) := by
  have hu : b3 + b2 * 256 + b1 * 65536 + b0 * 16777216 < 4294967296 := by omega
  have hb := toSignedI32_bounds _ hu
  constructor
  · intro h5 hb4
    have hw := wrapSub64_header _ h5 hb.2
    rcases hb4 with rfl | rfl <;>
      refine ⟨?_, ?_⟩ <;>
        simp [headerNew, messageHeaderNew, parseInteger, parseCharacter,
          extractInt, extractChar, objAsInteger, objAsCharacter,
          dataAsInteger, dataAsCharacter, rustSlice, rustSliceFrom,
          bytesToI32, byteAt, bind, Except.bind, hw]
  · intro hz ho
    rcases b4 with _ | _ | n
    · exact absurd rfl hz
    · exact absurd rfl ho
    · refine ⟨?_, ?_⟩ <;>
        simp [headerNew, messageHeaderNew, parseInteger, parseCharacter,
          extractInt, extractChar, objAsInteger, objAsCharacter,
          dataAsInteger, dataAsCharacter, rustSlice, rustSliceFrom,
          bytesToI32, byteAt, bind, Except.bind]

/-- Witness for claim C6 at the concrete headers [0,0,0,7,1] (total 7,
compressed) and [0,0,0,7,9] (bad compression byte). -/
theorem c6_witness :
    5 ≤ toSignedI32 (7 + 0 * 256 + 0 * 65536 + 0 * 16777216) ∧
    headerNew [0, 0, 0, 7, 1] = .ok ⟨2, true⟩ ∧
    messageHeaderNew [0, 0, 0, 7, 1] = .ok ⟨2, true⟩ ∧
    headerNew [0, 0, 0, 7, 9] = .error (.parseError "Bad compression byte") ∧
    messageHeaderNew [0, 0, 0, 7, 9] =
      .error (.parseError "Bad compression data") := by
  have hA := (c6_header_decode 0 0 0 7 1 (by decide) (by decide) (by decide)
    (by decide)).1 (by decide) (Or.inr rfl)
  have hB := (c6_header_decode 0 0 0 7 9 (by decide) (by decide) (by decide)
    (by decide)).2 (by decide) (by decide)
  exact ⟨by decide, hA.1.trans rfl, hA.2.trans rfl, hB.1, hB.2⟩

/-- Counterexample to claim C6 as stated: on the all-zero header (total
length T = 0, compression byte 0) both decoders succeed in the release
build, but the exposed length is 2 ^ 64 - 5 after usize wrap-around, which
is not T - 5 = -5 (a debug build aborts on the underflow instead; in no
build does decoding succeed with length T - 5). -/
theorem c6_counterexample :
    headerNew [0, 0, 0, 0, 0] = .ok ⟨18446744073709551611, false⟩ ∧
    messageHeaderNew [0, 0, 0, 0, 0] = .ok ⟨18446744073709551611, false⟩ ∧
    ((18446744073709551611 : Int) ≠ (0 : Int) - 5) :=
  ⟨rfl, rfl, by decide⟩

theorem usizeOfI8_ofNat (n : Nat) (h : n < 18446744073709551616) :
    usizeOfI8 (n : Int) = n := by
  unfold usizeOfI8
  omega

theorem c9_sizes_up_to_127 (payload t : List Nat)
    (hle : payload.length ≤ 127) (hv : isValidUtf8 payload = true)
    (hmin : 1 ≤ payload.length + t.length) :
    parsePointer (payload.length :: (payload ++ t)) =
      .ok ⟨.ptr (if payload = asciiBytes "0" then none else some payload),
           1 + payload.length⟩ ∧
    extractPointer (payload.length :: (payload ++ t)) =
      .ok ⟨.ptr (if payload = asciiBytes "0" then none else some payload),
           1 + payload.length⟩ := by
  have hi8 : i8OfByte payload.length = (payload.length : Int) := by
    unfold i8OfByte
    rw [if_pos (by omega)]
  have hu : usizeOfI8 (payload.length : Int) = payload.length :=
    usizeOfI8_ofNat _ (by omega)
  have hw : wrapAdd64 1 payload.length = 1 + payload.length :=
    wrapAdd64_small _ _ (by omega)
  have hc1 : ¬((payload.length :: (payload ++ t)).length < 2) := by
    simp only [List.length_cons, List.length_append]
    omega
  have hc2 : ¬((payload.length :: (payload ++ t)).length < 1 + payload.length) := by
    simp only [List.length_cons, List.length_append]
    omega
  have hc3 : 1 ≤ 1 + payload.length ∧
      1 + payload.length ≤ (payload.length :: (payload ++ t)).length := by
    simp only [List.length_cons, List.length_append]
    omega
  have hiff : (payload.length = 1 ∧ payload = asciiBytes "0") ↔
      payload = asciiBytes "0" := by
    constructor
    · exact fun h => h.2
    · intro h
      subst h
      exact ⟨rfl, rfl⟩
  refine ⟨?_, ?_⟩ <;>
  · simp [parsePointer, extractPointer, byteAt, hi8, hu, hw, fromUtf8,
      rustSlice, bind, Except.bind, Nat.add_sub_cancel_left, List.take_left]
    rw [if_neg (by omega), if_neg (by omega), if_pos (by omega)]
    simp [hv, hiff]

theorem c9_sizes_128_254 (sz : Nat) (rest : List Nat) (h128 : 128 ≤ sz)
    (h254 : sz ≤ 254) (hmin2 : 2 ≤ (sz :: rest).length)
    (hbound : (sz :: rest).length < 18446744073709551489) :
    parsePointer (sz :: rest) =
      .error (.parseError "Pointer larger then availiable bytes") ∧
    extractPointer (sz :: rest) =
      .error (.parseError "Pointer larger then availiable bytes") := by
  have hb : byteAt (sz :: rest) 0 = sz := rfl
  have hi8 : i8OfByte sz = (sz : Int) - 256 := by
    unfold i8OfByte
    rw [if_neg (by omega)]
  have hEval : wrapAdd64 1 (usizeOfI8 ((sz : Int) - 256)) =
      (18446744073709551361 + sz) % 18446744073709551616 := by
    unfold wrapAdd64 usizeOfI8
    omega
  refine ⟨?_, ?_⟩ <;>
  · simp only [parsePointer, extractPointer, bind, Except.bind, hb, hi8, hEval]
    rw [if_neg (by omega), if_pos (by omega)]

theorem c9_size_255 (sz : Nat) (rest : List Nat) (h255 : sz = 255)
    (hmin2 : 2 ≤ (sz :: rest).length) :
    parsePointer (sz :: rest) = .error .panicked ∧
    extractPointer (sz :: rest) = .error .panicked := by
  have hb : byteAt (sz :: rest) 0 = sz := rfl
  have hi8 : i8OfByte sz = (sz : Int) - 256 := by
    unfold i8OfByte
    rw [if_neg (by omega)]
  have hEval : wrapAdd64 1 (usizeOfI8 ((sz : Int) - 256)) =
      (18446744073709551361 + sz) % 18446744073709551616 := by
    unfold wrapAdd64 usizeOfI8
    omega
  refine ⟨?_, ?_⟩ <;>
  · simp only [parsePointer, extractPointer, bind, Except.bind, hb, hi8,
      hEval, rustSlice]
    rw [if_neg (by omega), if_neg (by omega), if_neg (by omega)]

theorem c9_negative_sizes (sz : Nat) (rest : List Nat) (h128 : 128 ≤ sz)
    (h255 : sz ≤ 255) (hbound : (sz :: rest).length < 18446744073709551489) :
    ∃ e : WErr, parsePointer (sz :: rest) = .error e ∧
      extractPointer (sz :: rest) = .error e := by
  by_cases hlen2 : (sz :: rest).length < 2
  · refine ⟨.parseError "Not enough bytes to parse pointer", ?_, ?_⟩
    · unfold parsePointer
      rw [if_pos hlen2]
    · unfold extractPointer
      rw [if_pos hlen2]
  · by_cases h255e : sz = 255
    · exact ⟨.panicked, c9_size_255 sz rest h255e (by omega)⟩
    · exact ⟨.parseError "Pointer larger then availiable bytes",
        c9_sizes_128_254 sz rest h128 (by omega) (by omega) hbound⟩

/-- Claim C9 (amended): for a pointer whose size byte equals the payload
length, both pointer decoders return null exactly on the single-byte
payload 0 and Some of the exact payload text otherwise, consuming 1 + size
bytes - provided the size byte is at most 127, the payload is valid UTF-8,
and the input has at least 2 bytes (the decoders require that minimum, so
the empty payload only decodes when trailing bytes follow). A size byte of
128..255 is read as a negative i8 size and never yields a decoded pointer:
on any input of fewer than 2 ^ 64 - 127 bytes the decode returns an error,
and with the 2-byte minimum met that error is the availability ParseError
for sizes 128..254, and for 255 an abort (the end position wraps to 0 and
the reversed slice bytes[1..0] aborts; a debug build aborts on the
overflow itself). -/
theorem c9_pointer_decode :
    (∀ (payload t : List Nat), payload.length ≤ 127 →
      isValidUtf8 payload = true → 1 ≤ payload.length + t.length →
      parsePointer (payload.length :: (payload ++ t)) =
        .ok ⟨.ptr (if payload = asciiBytes "0" then none else some payload),
             1 + payload.length⟩ ∧
      extractPointer (payload.length :: (payload ++ t)) =
        .ok ⟨.ptr (if payload = asciiBytes "0" then none else some payload),
             1 + payload.length⟩) ∧
    (∀ (sz : Nat) (rest : List Nat), 128 ≤ sz → sz ≤ 255 →
      (sz :: rest).length < 18446744073709551489 →
      ∃ e : WErr, parsePointer (sz :: rest) = .error e ∧
        extractPointer (sz :: rest) = .error e) ∧
    (∀ (sz : Nat) (rest : List Nat), 128 ≤ sz → sz ≤ 254 →
      2 ≤ (sz :: rest).length →
      (sz :: rest).length < 18446744073709551489 →
      parsePointer (sz :: rest) =
        .error (.parseError "Pointer larger then availiable bytes") ∧
      extractPointer (sz :: rest) =
        .error (.parseError "Pointer larger then availiable bytes")) ∧
    (∀ (sz : Nat) (rest : List Nat), sz = 255 → 2 ≤ (sz :: rest).length →
      parsePointer (sz :: rest) = .error .panicked ∧
      extractPointer (sz :: rest) = .error .panicked) :=
  ⟨c9_sizes_up_to_127, c9_negative_sizes, c9_sizes_128_254, c9_size_255⟩

set_option maxRecDepth 8000 in
/-- Counterexample to claim C9 as stated: a 128-byte payload (every byte the
character 0, so not the single-byte null sentinel) is declared with size
byte 128, which reads as the i8 value -128; the cast to usize turns the end
position into 2 ^ 64 - 127, so both decoders return the availability
ParseError instead of Some of the payload text. A second conjunct shows the
exact input [0] (declared size 0, empty payload, nothing trailing) also
fails the minimum-length check rather than decoding to Some of the empty
text. -/
theorem c9_counterexample :
    parsePointer (128 :: List.replicate 128 48) =
      .error (.parseError "Pointer larger then availiable bytes") ∧
    extractPointer (128 :: List.replicate 128 48) =
      .error (.parseError "Pointer larger then availiable bytes") ∧
    parsePointer [0] = .error (.parseError "Not enough bytes to parse pointer") ∧
    extractPointer [0] = .error (.parseError "Not enough bytes to parse pointer") :=
  ⟨rfl, rfl, rfl, rfl⟩

/-- Witness for claim C9 at the null sentinel (size 1, payload the single
byte 0, one trailing byte) via the amended theorem. -/
theorem c9_witness :
    ([48] : List Nat).length ≤ 127 ∧ isValidUtf8 [48] = true ∧
    1 ≤ ([48] : List Nat).length + ([7] : List Nat).length ∧
    parsePointer (([48] : List Nat).length :: ([48] ++ [7])) = .ok ⟨.ptr none, 2⟩ ∧
    extractPointer (([48] : List Nat).length :: ([48] ++ [7])) = .ok ⟨.ptr none, 2⟩ ∧
    128 ≤ (255 : Nat) ∧ (255 : Nat) ≤ 255 ∧
    ((255 : Nat) :: [48]).length < 18446744073709551489 ∧
    (∃ e : WErr, parsePointer ((255 : Nat) :: [48]) = .error e ∧
      extractPointer ((255 : Nat) :: [48]) = .error e) ∧
    (parsePointer ((200 : Nat) :: [48, 49]) =
        .error (.parseError "Pointer larger then availiable bytes") ∧
      extractPointer ((200 : Nat) :: [48, 49]) =
        .error (.parseError "Pointer larger then availiable bytes")) ∧
    (parsePointer ((255 : Nat) :: [48]) = .error .panicked ∧
      extractPointer ((255 : Nat) :: [48]) = .error .panicked) :=
  ⟨by decide, by decide, by decide,
   (c9_pointer_decode.1 [48] [7] (by decide) (by decide) (by decide)).1.trans rfl,
   (c9_pointer_decode.1 [48] [7] (by decide) (by decide) (by decide)).2.trans rfl,
   by decide, by decide, by decide,
   c9_pointer_decode.2.1 255 [48] (by decide) (by decide) (by decide),
   c9_pointer_decode.2.2.1 200 [48, 49] (by decide) (by decide) (by decide)
     (by decide),
   c9_pointer_decode.2.2.2 255 [48] rfl (by decide)⟩

/-- Claim C7 (amended to lengths below 2 ^ 31): decoding the 4-byte
big-endian encoding of L followed by the L bytes of a valid UTF-8 string s
(and arbitrary trailing bytes) succeeds in both string decoders, returns
exactly s, and consumes exactly 4 + L bytes. The declared length field is a
signed 32-bit integer, so this holds for 0 ≤ L < 2 ^ 31; a string of length
2 ^ 31 or more has no nonnegative declared length (see the
counterexample). -/
theorem c7_string_round_trip (s t : List Nat) (hv : isValidUtf8 s = true)
    (hlen : s.length < 2147483648) :
    parseString (specEncodeI32BE (s.length : Int) ++ (s ++ t)) =
      .ok ⟨.str (some s), 4 + s.length⟩ ∧
    extractString (specEncodeI32BE (s.length : Int) ++ (s ++ t)) =
      .ok ⟨.str (some s), 4 + s.length⟩ := by
  have henc : (specEncodeI32BE (s.length : Int)).length = 4 := rfl
  have hdec : bytesToI32 (specEncodeI32BE (s.length : Int)) =
      .ok (s.length : Int) :=
    bytesToI32_encode _ (by omega) (by exact_mod_cast hlen)
  have hu32 : usizeOfI32 (s.length : Int) = s.length :=
    usizeOfI32_ofNat _ (by omega)
  have hw : wrapAdd64 4 s.length = 4 + s.length := wrapAdd64_small _ _ (by omega)
  have hlen' : (specEncodeI32BE (s.length : Int) ++ (s ++ t)).length =
      4 + s.length + t.length := by
    simp [List.length_append, henc]
    omega
  have hsl : rustSlice (specEncodeI32BE (s.length : Int) ++ (s ++ t)) 0 4 =
      .ok (specEncodeI32BE (s.length : Int)) := by
    unfold rustSlice
    rw [if_pos ⟨by omega, by omega⟩]
    simp [List.take_left' henc]
  have hsl2 : rustSlice (specEncodeI32BE (s.length : Int) ++ (s ++ t)) 4
      (4 + s.length) = .ok s := by
    unfold rustSlice
    rw [if_pos ⟨by omega, by omega⟩]
    simp [List.drop_left' henc, Nat.add_sub_cancel_left, List.take_left]
  rcases eq_or_ne s [] with rfl | hs
  · have h0 : ([] : List Nat).length = 0 := rfl
    refine ⟨?_, ?_⟩ <;>
    · simp only [parseString, extractString, bind, Except.bind, hsl, hdec,
        hu32, hw]
      rw [if_neg (by omega), if_neg (by omega), if_neg (by omega),
        if_pos (by omega)]
  · have hpos : 0 < s.length := List.length_pos.mpr hs
    refine ⟨?_, ?_⟩ <;>
    · simp only [parseString, extractString, bind, Except.bind, hsl, hdec,
        hu32, hw, hsl2, fromUtf8, hv, if_true]
      rw [if_neg (by omega), if_neg (by omega), if_neg (by omega),
        if_neg (by omega)]

theorem isValidUtf8_replicate97 (n : Nat) :
    isValidUtf8 (List.replicate n 97) = true := by
  show utf8Dfa (List.replicate n 97) 0 0 0 = true
  induction n with
  | zero => rfl
  | succ n ih =>
    rw [List.replicate_succ]
    simp only [utf8Dfa]
    rw [if_pos (by norm_num)]
    exact ih

theorem stringDecode_oversize (pre rest : List Nat) (hpre : pre.length = 4)
    (sz : Int) (hdec : bytesToI32 pre = .ok sz)
    (hover : 4 + rest.length < wrapAdd64 4 (usizeOfI32 sz)) :
    parseString (pre ++ rest) =
      .error (.parseError "String larger then availiable bytes") ∧
    extractString (pre ++ rest) =
      .error (.parseError "String larger then availiable bytes") := by
  have hlen' : (pre ++ rest).length = 4 + rest.length := by
    rw [List.length_append, hpre]
  have hsl : rustSlice (pre ++ rest) 0 4 = .ok pre := by
    unfold rustSlice
    rw [if_pos ⟨by omega, by omega⟩, List.drop_zero, Nat.sub_zero,
      List.take_left' hpre]
  refine ⟨?_, ?_⟩ <;>
  · simp only [parseString, extractString, bind, Except.bind, hsl, hdec]
    rw [if_neg (by omega), if_pos (by omega)]

/-- Counterexample to claim C7 as stated: the all-97 string of byte length
exactly 2 ^ 31 is valid UTF-8, but its 4-byte big-endian length encoding
[128, 0, 0, 0] is read back as the signed value -2 ^ 31, so both string
decoders reject the encode-then-decode input with a ParseError instead of
returning the original text. -/
theorem c7_counterexample :
    isValidUtf8 (List.replicate 2147483648 97) = true ∧
    parseString (specEncodeI32BE ((List.replicate 2147483648 97).length : Int) ++
        (List.replicate 2147483648 97 ++ [])) =
      .error (.parseError "String larger then availiable bytes") ∧
    extractString (specEncodeI32BE ((List.replicate 2147483648 97).length : Int) ++
        (List.replicate 2147483648 97 ++ [])) =
      .error (.parseError "String larger then availiable bytes") := by
  have hover : 4 + (List.replicate 2147483648 97 ++ ([] : List Nat)).length <
      wrapAdd64 4 (usizeOfI32 (-2147483648)) := by
    rw [List.length_append, List.length_replicate, List.length_nil,
      show wrapAdd64 4 (usizeOfI32 (-2147483648)) = 18446744071562067972 from rfl]
    omega
  have hb32 : bytesToI32 [128, 0, 0, 0] = .ok (-2147483648) := by
    norm_num [bytesToI32, toSignedI32]
  have hmain := stringDecode_oversize [128, 0, 0, 0]
    (List.replicate 2147483648 97 ++ []) rfl (-2147483648) hb32 hover
  refine ⟨isValidUtf8_replicate97 2147483648, ?_, ?_⟩
  · rw [List.length_replicate,
      show specEncodeI32BE ((2147483648 : Nat) : Int) = [128, 0, 0, 0] from
        by decide]
    exact hmain.1
  · rw [List.length_replicate,
      show specEncodeI32BE ((2147483648 : Nat) : Int) = [128, 0, 0, 0] from
        by decide]
    exact hmain.2

/-- Witness for claim C7 at the two-byte ASCII string ab with one trailing
byte. -/
theorem c7_witness :
    isValidUtf8 [97, 98] = true ∧ ([97, 98] : List Nat).length < 2147483648 ∧
    parseString (specEncodeI32BE (([97, 98] : List Nat).length : Int) ++
        ([97, 98] ++ [5])) = .ok ⟨.str (some [97, 98]), 6⟩ ∧
    extractString (specEncodeI32BE (([97, 98] : List Nat).length : Int) ++
        ([97, 98] ++ [5])) = .ok ⟨.str (some [97, 98]), 6⟩ :=
  ⟨by decide, by decide,
   (c7_string_round_trip [97, 98] [5] (by decide) (by decide)).1.trans rfl,
   (c7_string_round_trip [97, 98] [5] (by decide) (by decide)).2.trans rfl⟩

/-- Counterexample to claim C1 as stated: on a 25-byte input (paths p, keys
f:int, count 1, one null path pointer, one int field, then one trailing
byte) HData::new succeeds having consumed only 24 of the 25 bytes; the
mismatch is not reported as an error, the trailing byte is silently
ignored. -/
theorem c1_counterexample :
    hdataNewAux ([0, 0, 0, 1, 112] ++ [0, 0, 0, 5, 102, 58, 105, 110, 116] ++
        [0, 0, 0, 1] ++ [1, 48] ++ [0, 0, 0, 7] ++ [42]) =
      .ok ([[(asciiBytes "p", .ptr none), (asciiBytes "f", .int 7)]], 24) ∧
    hdataNew ([0, 0, 0, 1, 112] ++ [0, 0, 0, 5, 102, 58, 105, 110, 116] ++
        [0, 0, 0, 1] ++ [1, 48] ++ [0, 0, 0, 7] ++ [42]) =
      .ok [[(asciiBytes "p", .ptr none), (asciiBytes "f", .int 7)]] ∧
    ([0, 0, 0, 1, 112] ++ [0, 0, 0, 5, 102, 58, 105, 110, 116] ++
        [0, 0, 0, 1] ++ [1, 48] ++ [0, 0, 0, 7] ++ ([42] : List Nat)).length = 25 ∧
    (24 : Nat) ≠ 25 :=
  ⟨rfl, rfl, rfl, by decide⟩

/-- Claim C1 (amended): HData::new performs no all-bytes-consumed check; a
decode that leaves trailing input succeeds and silently ignores it. Stated
on a decode family with one arbitrary trailing byte after a complete
24-byte HData (paths p, keys f:int, count 1): for every value of the
trailing byte, the decode succeeds with the same records and an internal
counter of 24 bytes consumed out of 25. -/
theorem c1_hdata_ignores_trailing (b : Nat) :
    hdataNewAux ([0, 0, 0, 1, 112] ++ [0, 0, 0, 5, 102, 58, 105, 110, 116] ++
        [0, 0, 0, 1] ++ [1, 48] ++ [0, 0, 0, 7] ++ [b]) =
      .ok ([[(asciiBytes "p", .ptr none), (asciiBytes "f", .int 7)]], 24) ∧
    hdataNew ([0, 0, 0, 1, 112] ++ [0, 0, 0, 5, 102, 58, 105, 110, 116] ++
        [0, 0, 0, 1] ++ [1, 48] ++ [0, 0, 0, 7] ++ [b]) =
      .ok [[(asciiBytes "p", .ptr none), (asciiBytes "f", .int 7)]] ∧
    ([0, 0, 0, 1, 112] ++ [0, 0, 0, 5, 102, 58, 105, 110, 116] ++
        [0, 0, 0, 1] ++ [1, 48] ++ [0, 0, 0, 7] ++ ([b] : List Nat)).length = 25 :=
  ⟨rfl, rfl, rfl⟩

theorem tagLoop_strings (tags : List DataType)
    (h : ∀ e ∈ tags, ∃ os, e = DataType.str os) :
    tagLoop tags = .ok (tags.any tagMatchesNotifyPrivate) := by
  induction tags with
  | nil => rfl
  | cons e rest ih =>
    obtain ⟨os, rfl⟩ := h e (by simp)
    have hrest := ih (fun x hx => h x (by simp [hx]))
    have hne : ([] : List Nat) ≠ asciiBytes "notify_private" := by decide
    cases os with
    | none => simp [tagLoop, hne, hrest, tagMatchesNotifyPrivate]
    | some s =>
      by_cases hs : s = asciiBytes "notify_private"
      · simp [tagLoop, hs, tagMatchesNotifyPrivate]
      · simp [tagLoop, hs, hrest, tagMatchesNotifyPrivate]

theorem hblaLoop_characterization (rs : List HRecord) (sound : Bool)
    (h : ∀ r ∈ rs, recordWellTyped r) :
    hblaLoop rs sound = .ok (sound || rs.any specNotifyWorthy) := by
  induction rs generalizing sound with
  | nil => simp [hblaLoop]
  | cons r rest ih =>
    obtain ⟨⟨c, hc⟩, tags, ht, htags⟩ := h r (by simp)
    have hrest := fun sound => ih sound (fun x hx => h x (by simp [hx]))
    by_cases hc1 : c = 1
    · subst hc1
      simp [hblaLoop, hc, ht, specNotifyWorthy]
    · have htl := tagLoop_strings tags htags
      have hcb : (c == 1) = false := by
        simp [hc1]
      simp [hblaLoop, hc, ht, hc1, htl, hrest, specNotifyWorthy,
        Bool.or_assoc, hcb]

/-- Claim C5: with well-typed records (char highlight, string-array tags),
handle_buffer_line_added marks the message notify-worthy exactly when some
record has highlight byte 1 or a tag equal to notify_private; in
particular a record with highlight 1 and empty tags is notify-worthy, one
with highlight 0 and only the tag notify_message is not, and one with
highlight 0 and the tag notify_private is. -/
theorem c5_notify_worthy :
    (∀ records : List HRecord, (∀ r ∈ records, recordWellTyped r) →
      handleBufferLineAdded (.hData records) =
        .ok (records.any specNotifyWorthy)) ∧
    handleBufferLineAdded (.hData [[(asciiBytes "highlight", .chr 1),
      (asciiBytes "tags_array", .arr [])]]) = .ok true ∧
    handleBufferLineAdded (.hData [[(asciiBytes "highlight", .chr 0),
      (asciiBytes "tags_array",
        .arr [.str (some (asciiBytes "notify_private"))])]]) = .ok true ∧
    handleBufferLineAdded (.hData [[(asciiBytes "highlight", .chr 0),
      (asciiBytes "tags_array",
        .arr [.str (some (asciiBytes "notify_message"))])]]) = .ok false := by
  refine ⟨?_, rfl, rfl, rfl⟩
  intro records h
  show hblaLoop records false = _
  rw [hblaLoop_characterization records false h]
  simp

/-- Witness for claim C5 at a single record with highlight byte 1 and an
empty tags array. -/
theorem c5_witness :
    (∀ r ∈ [[(asciiBytes "highlight", DataType.chr 1),
        (asciiBytes "tags_array", DataType.arr [])]], recordWellTyped r) ∧
    handleBufferLineAdded (.hData [[(asciiBytes "highlight", .chr 1),
      (asciiBytes "tags_array", .arr [])]]) =
      .ok ([[(asciiBytes "highlight", DataType.chr 1),
        (asciiBytes "tags_array", DataType.arr [])]].any specNotifyWorthy) := by
  have hwt : ∀ r ∈ [[(asciiBytes "highlight", DataType.chr 1),
      (asciiBytes "tags_array", DataType.arr [])]], recordWellTyped r := by
    intro r hr
    rw [List.mem_singleton] at hr
    subst hr
    exact ⟨⟨1, rfl⟩, [], rfl, by simp⟩
  exact ⟨hwt, c5_notify_worthy.1 _ hwt⟩

/-- Witness for claim C1 at the trailing byte 42. -/
theorem c1_witness :
    hdataNewAux ([0, 0, 0, 1, 112] ++ [0, 0, 0, 5, 102, 58, 105, 110, 116] ++
        [0, 0, 0, 1] ++ [1, 48] ++ [0, 0, 0, 7] ++ [42]) =
      .ok ([[(asciiBytes "p", .ptr none), (asciiBytes "f", .int 7)]], 24) :=
  (c1_hdata_ignores_trailing 42).1
